import Mathlib

/-!
Verification development for the badminton video-analysis pipeline
(`badminton_ai/video_utils.py` and `badminton_ai/pipeline.py`).

The combinatorial core (frame sampling, batching, fan-out/fan-in result
delivery) is embedded as computable functions over `ℕ`/lists; the numeric
geometry (`_calculate_angle`, `_calculate_metrics`) is embedded over `ℝ`
with exact real arithmetic standing in for IEEE doubles.  The external
pose estimator (`self.pose.process`) is modelled as an oracle
`ℕ → PoseOutcome` indexed by frame number: it can raise, detect no
landmarks, or return a full landmark set, matching the three control paths
of `_process_single_frame`.
-/

namespace BadmintonAI

/-- One landmark coordinate record, as built by `_get_landmark`
(`video_utils.py` lines 205-213): always the four entries x, y, z,
visibility. -/
structure Coord where
  x : ℝ
  y : ℝ
  z : ℝ
  visibility : ℝ

/-- A keypoint record as consumed by `_calculate_metrics`: a mapping from
the seven tracked joint names to coordinate records, with each joint
possibly absent (dict membership test / `.get` returning `None` in the
source).  `_get_landmark` never returns an empty dict, so Python
truthiness of a present joint coincides with presence. -/
structure Keypoints where
  nose : Option Coord
  left_wrist : Option Coord
  right_wrist : Option Coord
  left_elbow : Option Coord
  right_elbow : Option Coord
  left_shoulder : Option Coord
  right_shoulder : Option Coord

/-- A full landmark set, as extracted in `_process_single_frame` lines
181-189: when MediaPipe reports pose landmarks, all seven tracked joints
are extracted unconditionally. -/
structure Landmarks where
  nose : Coord
  left_wrist : Coord
  right_wrist : Coord
  left_elbow : Coord
  right_elbow : Coord
  left_shoulder : Coord
  right_shoulder : Coord

/-- The keypoints dict built from a detected landmark set: every tracked
joint present. -/
def Landmarks.toKeypoints (L : Landmarks) : Keypoints :=
  ⟨some L.nose, some L.left_wrist, some L.right_wrist, some L.left_elbow,
   some L.right_elbow, some L.left_shoulder, some L.right_shoulder⟩

/-- `np.array(a) - np.array(b)` on 3-tuples. -/
def sub3 (u v : ℝ × ℝ × ℝ) : ℝ × ℝ × ℝ :=
  (u.1 - v.1, u.2.1 - v.2.1, u.2.2 - v.2.2)

/-- `np.dot` on 3-vectors. -/
def dot3 (u v : ℝ × ℝ × ℝ) : ℝ :=
  u.1 * v.1 + u.2.1 * v.2.1 + u.2.2 * v.2.2

/-- `np.linalg.norm` on a 3-vector. -/
noncomputable def norm3 (v : ℝ × ℝ × ℝ) : ℝ :=
  Real.sqrt (v.1 ^ 2 + v.2.1 ^ 2 + v.2.2 ^ 2)

/-- `VideoProcessor._calculate_angle` (lines 245-254): angle at vertex `b`
of the triangle `a b c`, via
`degrees(arccos(clip(dot(ba,bc) / (|ba||bc| + 1e-6), -1, 1)))`.
`np.clip(x, -1, 1)` is `min (max x (-1)) 1`; `np.degrees θ = θ·180/π`. -/
noncomputable def calculate_angle (a b c : ℝ × ℝ × ℝ) : ℝ :=
  let ba := sub3 a b
  let bc := sub3 c b
  let cosine_angle := dot3 ba bc / (norm3 ba * norm3 bc + 1e-6)
  Real.arccos (min (max cosine_angle (-1)) 1) * (180 / Real.pi)

/-- `VideoProcessor._calculate_metrics` (lines 215-243) on a (non-None)
keypoints dict.  Emits, in source order: `wrist_distance` when both wrists
are present, then `left_elbow_angle` and `right_elbow_angle` when the
respective shoulder/elbow/wrist triple is present; absent joints skip the
corresponding entry.  The result models the Python dict as an association
list in insertion order. -/
noncomputable def calculate_metrics (k : Keypoints) : List (String × ℝ) :=
  (match k.left_wrist, k.right_wrist with
    | some lw, some rw =>
        [("wrist_distance", Real.sqrt ((lw.x - rw.x) ^ 2 + (lw.y - rw.y) ^ 2))]
    | _, _ => []) ++
  (match k.left_shoulder, k.left_elbow, k.left_wrist with
    | some s, some e, some w =>
        [("left_elbow_angle",
          calculate_angle (s.x, s.y, 0) (e.x, e.y, 0) (w.x, w.y, 0))]
    | _, _, _ => []) ++
  (match k.right_shoulder, k.right_elbow, k.right_wrist with
    | some s, some e, some w =>
        [("right_elbow_angle",
          calculate_angle (s.x, s.y, 0) (e.x, e.y, 0) (w.x, w.y, 0))]
    | _, _, _ => [])

/-- `_calculate_metrics` applied to a possibly-`None` argument, as the
spec's `derive(KeypointRecord|None)` contract reads it.  The body's first
executed expression is the membership test
`all(k in keypoints for k in ["left_wrist", "right_wrist"])` (line 220),
and in Python `"left_wrist" in None` raises
`TypeError: argument of type 'NoneType' is not iterable`; so a `None`
input is an error outcome, not a value. -/
noncomputable def calculate_metrics_checked :
    Option Keypoints → Except String (List (String × ℝ))
  | none => Except.error "TypeError: argument of type NoneType is not iterable"
  | some k => Except.ok (calculate_metrics k)

/-- The mutable state of a `VideoProcessor` instance: the constructor
fields (lines 33-44).  `frame_cache` holds arbitrary cached entries; only
its size is ever consulted. -/
structure ProcessorState where
  target_size : ℕ × ℕ
  use_gpu : Bool
  frame_cache_size : ℕ

/-- `_calculate_metrics` as a method: explicit state passing for `self`.
The method body (lines 215-254, including the `_calculate_angle` it calls)
reads only its `keypoints` argument and local variables — it neither reads
nor writes any field of `self` — so the state passes through unchanged and
the value component depends only on the argument. -/
noncomputable def calculate_metrics_method (s : ProcessorState) (k : Keypoints) :
    ProcessorState × List (String × ℝ) :=
  (s, calculate_metrics k)

/-- Outcome of the external pose-estimation call `self.pose.process` on a
given frame, as distinguished by `_process_single_frame` (lines 169-203):
the call may raise, may detect no landmarks (`results.pose_landmarks`
falsy), or may return a landmark set. -/
inductive PoseOutcome where
  | raises
  | noLandmarks
  | detected (L : Landmarks)

/-- Whether the oracle detected landmarks for this frame. -/
def PoseOutcome.isDetected : PoseOutcome → Bool
  | .detected _ => true
  | _ => false

/-- The per-frame result dict built at lines 194-199. `keypoints` is
typed optional so that the spec's `keypoints = None` records are
expressible; the source always fills it with a full landmark set. -/
structure FrameResult where
  frame_number : ℕ
  timestamp : ℝ
  keypoints : Option Keypoints
  metrics : List (String × ℝ)

/-- `VideoProcessor._process_single_frame` (lines 162-203), with the pose
model abstracted as an oracle keyed by frame number (the frame pixel
buffer is determined by its index).  A raised exception is caught by the
`except` at line 201 and converted to `None`; an undetected pose returns
`None` at line 177; a detection builds the result dict with all seven
keypoints and its derived metrics. -/
noncomputable def process_single_frame (pose : ℕ → PoseOutcome) (ts : ℕ → ℝ)
    (n : ℕ) : Option FrameResult :=
  match pose n with
  | .raises => none
  | .noLandmarks => none
  | .detected L =>
      some { frame_number := n
             timestamp := ts n
             keypoints := some L.toKeypoints
             metrics := calculate_metrics L.toKeypoints }

/-- The frame-reading loop of `VideoProcessor._batch_frames` (lines
117-146), specialised to the frame-number sequences of the emitted
batches (the `frames` and `timestamps` lists are built in lockstep with
`frame_numbers`).  First argument list: the raw frame indices still to be
read; second: the accumulating current batch.  A frame is kept when
`frame_count % sample_rate == 0`; the batch is emitted as soon as
`batch_size <= len(batch)` and a nonempty final batch is emitted at
end-of-stream. -/
def batch_frames_loop (N B : ℕ) : List ℕ → List ℕ → List (List ℕ)
  | [], batch => if batch.isEmpty then [] else [batch]
  | i :: rest, batch =>
      if i % N == 0 then
        let grown := batch ++ [i]
        if B ≤ grown.length then grown :: batch_frames_loop N B rest []
        else batch_frames_loop N B rest grown
      else batch_frames_loop N B rest batch

/-- `VideoProcessor._batch_frames` over a video of `F` raw frames
(`cap.read()` succeeds exactly `F` times, with `frame_count` running
0, 1, …, F-1), sample rate `N`, batch size `B`. -/
def batch_frames (F N B : ℕ) : List (List ℕ) :=
  batch_frames_loop N B (List.range F) []

/-- Fan-in of one batch: the results delivered by the `as_completed` loop
of `process_video` (lines 93-101) when the batch's futures complete in the
order given by `b`.  Each future's result is `_process_single_frame`;
`None` results are dropped by the `if result:` guard at line 98 and
exceptions re-raised from `future.result()` are swallowed at line 100. -/
noncomputable def process_batch (pose : ℕ → PoseOutcome) (ts : ℕ → ℝ)
    (b : List ℕ) : List FrameResult :=
  b.filterMap (process_single_frame pose ts)

/-- `VideoProcessor.process_video` (lines 55-104): batches are consumed
from `_batch_frames` strictly in source order; within a batch, results are
delivered in the completion order of the futures.  `completed` lists each
batch's frame numbers in the order their futures completed; theorems
relate it to `batch_frames` by per-batch permutation. -/
noncomputable def process_video (pose : ℕ → PoseOutcome) (ts : ℕ → ℝ)
    (completed : List (List ℕ)) : List FrameResult :=
  (completed.map (process_batch pose ts)).flatten

/-- One entry of the pipeline state's `errors` list
(`pipeline.py`, e.g. line 100). -/
structure StepError where
  step : String
  error : String
deriving DecidableEq

/-- The state update returned by the `fn_process_video` node: either only
an extended `errors` list (the `except` path or the missing-path guard),
or the success payload of lines 114-119. -/
inductive NodeUpdate where
  | failed (errors : List StepError)
  | ok (frames : List (Option Keypoints)) (pose_metrics : List (List (String × ℝ)))
       (timestamps : List ℝ) (errors : List StepError)

/-- `fn_process_video` (`pipeline.py` lines 95-126) as a function of the
already-collected `process_video_frames` result list.  An empty result
list raises `ValueError("No pose detection results returned")` at line
112, which the node's own `except` catches and records as a step error;
otherwise the keypoints / metrics / timestamps projections are returned
(`if r` is always true: every yielded result dict is nonempty). -/
def fn_process_video (hasPath : Bool) (errors : List StepError)
    (results : List FrameResult) : NodeUpdate :=
  if hasPath = false then
    NodeUpdate.failed (errors ++ [⟨"process_video", "No video path provided"⟩])
  else if results.isEmpty then
    NodeUpdate.failed (errors ++
      [⟨"process_video", "Video processing failed: No pose detection results returned"⟩])
  else
    NodeUpdate.ok (results.map fun r => r.keypoints)
      (results.map fun r => r.metrics)
      (results.map fun r => r.timestamp) errors

/-- The elbow-angle formula exactly as the specification words it
(section 4.4): `degrees(arccos(clip(dot(v1,v2)/(|v1||v2| + ε), -1, 1)))`
with `v1 = shoulder − elbow`, `v2 = wrist − elbow`, `ε = 1e-6`, on the 2-D
coordinates of the three joints. -/
noncomputable def specElbowAngle (shoulder elbow wrist : Coord) : ℝ :=
  let v1 : ℝ × ℝ := (shoulder.x - elbow.x, shoulder.y - elbow.y)
  let v2 : ℝ × ℝ := (wrist.x - elbow.x, wrist.y - elbow.y)
  let c := (v1.1 * v2.1 + v1.2 * v2.2) /
    (Real.sqrt (v1.1 ^ 2 + v1.2 ^ 2) * Real.sqrt (v2.1 ^ 2 + v2.2 ^ 2) + 1e-6)
  Real.arccos (min (max c (-1)) 1) * (180 / Real.pi)

/-- A concrete landmark coordinate for counterexamples and witnesses. -/
noncomputable def demoCoord : Coord := ⟨0, 0, 0, 0⟩

/-- A concrete full landmark set. -/
noncomputable def demoLandmarks : Landmarks :=
  ⟨demoCoord, demoCoord, demoCoord, demoCoord, demoCoord, demoCoord, demoCoord⟩

/-! ### Batching lemmas -/

/-- Unfolding: end of stream. -/
theorem batch_frames_loop_nil (N B : ℕ) (batch : List ℕ) :
    batch_frames_loop N B [] batch = if batch.isEmpty then [] else [batch] := rfl

/-- Unfolding: a sampled frame that fills the batch. -/
theorem batch_frames_loop_cons_yield (N B i : ℕ) (rest batch : List ℕ)
    (hi : (i % N == 0) = true) (hyld : B ≤ batch.length + 1) :
    batch_frames_loop N B (i :: rest) batch =
      (batch ++ [i]) :: batch_frames_loop N B rest [] := by
  simp [batch_frames_loop, hi, hyld]

/-- Unfolding: a sampled frame added to a still-unfilled batch. -/
theorem batch_frames_loop_cons_grow (N B i : ℕ) (rest batch : List ℕ)
    (hi : (i % N == 0) = true) (hyld : ¬ B ≤ batch.length + 1) :
    batch_frames_loop N B (i :: rest) batch =
      batch_frames_loop N B rest (batch ++ [i]) := by
  simp [batch_frames_loop, hi, hyld]

/-- Unfolding: a frame skipped by the sampling test. -/
theorem batch_frames_loop_cons_skip (N B i : ℕ) (rest batch : List ℕ)
    (hi : (i % N == 0) = false) :
    batch_frames_loop N B (i :: rest) batch = batch_frames_loop N B rest batch := by
  simp [batch_frames_loop, hi]

/-- Concatenating the emitted batches recovers the pending accumulator
followed by the sampled frames of the remaining stream. -/
theorem batch_frames_loop_flatten (N B : ℕ) :
    ∀ (xs batch : List ℕ),
      (batch_frames_loop N B xs batch).flatten =
        batch ++ xs.filter (fun i => i % N == 0) := by
  intro xs
  induction xs with
  | nil =>
      intro batch
      by_cases hb : batch.isEmpty
      · simp [batch_frames_loop_nil, hb, List.isEmpty_iff.mp hb]
      · simp [batch_frames_loop_nil, hb]
  | cons i rest ih =>
      intro batch
      by_cases hi : i % N == 0
      · by_cases hyld : B ≤ batch.length + 1
        · rw [batch_frames_loop_cons_yield N B i rest batch hi hyld]
          simp [ih, List.filter_cons, hi]
        · rw [batch_frames_loop_cons_grow N B i rest batch hi hyld]
          simp [ih, List.filter_cons, hi]
      · rw [batch_frames_loop_cons_skip N B i rest batch (by simpa using hi)]
        simp [ih, List.filter_cons, hi]

/-- `_batch_frames` never emits an empty batch: the end-of-stream yield is
guarded by `if batch.frames:` and the in-stream yield happens right after
an append. -/
theorem batch_frames_loop_ne_nil (N B : ℕ) :
    ∀ (xs batch : List ℕ), ∀ b ∈ batch_frames_loop N B xs batch, b ≠ [] := by
  intro xs
  induction xs with
  | nil =>
      intro batch b hb
      by_cases hemp : batch.isEmpty
      · simp [batch_frames_loop_nil, hemp] at hb
      · simp [batch_frames_loop_nil, hemp] at hb
        subst hb
        intro hcon
        exact hemp (by simp [hcon])
  | cons i rest ih =>
      intro batch b hb
      by_cases hi : i % N == 0
      · by_cases hyld : B ≤ batch.length + 1
        · rw [batch_frames_loop_cons_yield N B i rest batch hi hyld] at hb
          rcases List.mem_cons.mp hb with h | h
          · subst h; simp
          · exact ih [] b h
        · rw [batch_frames_loop_cons_grow N B i rest batch hi hyld] at hb
          exact ih (batch ++ [i]) b hb
      · rw [batch_frames_loop_cons_skip N B i rest batch (by simpa using hi)] at hb
        exact ih batch b hb

/-- Size discipline of the emitted batches: every batch before the last
has exactly `B` elements, and no batch exceeds `B`. -/
theorem batch_frames_loop_sizes (N B : ℕ) (hB : 1 ≤ B) :
    ∀ (xs batch : List ℕ), batch.length < B →
      (∀ b ∈ (batch_frames_loop N B xs batch).dropLast, b.length = B) ∧
      (∀ b ∈ batch_frames_loop N B xs batch, b.length ≤ B) := by
  intro xs
  induction xs with
  | nil =>
      intro batch hlt
      by_cases hemp : batch.isEmpty
      · simp [batch_frames_loop_nil, hemp]
      · refine ⟨?_, ?_⟩
        · simp [batch_frames_loop_nil, hemp]
        · intro b hb
          simp [batch_frames_loop_nil, hemp] at hb
          subst hb
          exact le_of_lt hlt
  | cons i rest ih =>
      intro batch hlt
      by_cases hi : i % N == 0
      · by_cases hyld : B ≤ batch.length + 1
        · have hlen : (batch ++ [i]).length = B := by
            simp only [List.length_append, List.length_singleton]
            omega
          have ihrec := ih [] (by simpa using hB)
          constructor
          · intro b hb
            rw [batch_frames_loop_cons_yield N B i rest batch hi hyld] at hb
            rcases hout : batch_frames_loop N B rest [] with _ | ⟨c, t⟩
            · rw [hout] at hb
              simp at hb
            · rw [hout, List.dropLast_cons₂] at hb
              rcases List.mem_cons.mp hb with h | h
              · subst h; exact hlen
              · exact ihrec.1 b (by rw [hout]; exact h)
          · intro b hb
            rw [batch_frames_loop_cons_yield N B i rest batch hi hyld] at hb
            rcases List.mem_cons.mp hb with h | h
            · subst h; exact le_of_eq hlen
            · exact ihrec.2 b h
        · have hlt2 : (batch ++ [i]).length < B := by
            simp only [List.length_append, List.length_singleton]
            omega
          have ihrec := ih (batch ++ [i]) hlt2
          constructor
          · intro b hb
            rw [batch_frames_loop_cons_grow N B i rest batch hi hyld] at hb
            exact ihrec.1 b hb
          · intro b hb
            rw [batch_frames_loop_cons_grow N B i rest batch hi hyld] at hb
            exact ihrec.2 b hb
      · have ihrec := ih batch hlt
        constructor
        · intro b hb
          rw [batch_frames_loop_cons_skip N B i rest batch (by simpa using hi)] at hb
          exact ihrec.1 b hb
        · intro b hb
          rw [batch_frames_loop_cons_skip N B i rest batch (by simpa using hi)] at hb
          exact ihrec.2 b hb

/-- Counting the sampled frames: the indices `0 ≤ i < F` with
`i % N == 0` number exactly `⌈F/N⌉ = (F + N - 1) / N`. -/
theorem length_filter_mod (N : ℕ) (hN : 1 ≤ N) :
    ∀ F : ℕ, ((List.range F).filter (fun i => i % N == 0)).length = (F + N - 1) / N := by
  intro F
  induction F with
  | zero =>
      have h0 : (0 + N - 1) / N = 0 := Nat.div_eq_of_lt (by omega)
      simp only [List.range_zero, List.filter_nil, List.length_nil, h0]
  | succ F ih =>
      rw [List.range_succ, List.filter_append, List.length_append, ih]
      have harith : F + 1 + N - 1 = (F + N - 1) + 1 := by omega
      rw [harith]
      by_cases hdvd : N ∣ F
      · have hm : F % N = 0 := Nat.dvd_iff_mod_eq_zero.mp hdvd
        have hdvd2 : N ∣ (F + N - 1) + 1 := by
          have heq : (F + N - 1) + 1 = F + N := by omega
          rw [heq]
          exact Nat.dvd_add hdvd dvd_rfl
        rw [Nat.succ_div_of_dvd hdvd2]
        simp [List.filter_cons, hm]
      · have hm : ¬ F % N = 0 := by
          rwa [Nat.dvd_iff_mod_eq_zero] at hdvd
        have hdvd2 : ¬ N ∣ (F + N - 1) + 1 := by
          have heq : (F + N - 1) + 1 = F + N := by omega
          rw [heq, Nat.dvd_add_self_right]
          exact hdvd
        rw [Nat.succ_div_of_not_dvd hdvd2]
        simp [List.filter_cons, hm]

/-- When `1 ≤ F < N`, the only sampled index is the first raw frame 0. -/
theorem filter_mod_of_lt (N F : ℕ) (hF : 1 ≤ F) (hFN : F < N) :
    (List.range F).filter (fun i => i % N == 0) = [0] := by
  obtain ⟨F', rfl⟩ : ∃ F', F = F' + 1 := ⟨F - 1, by omega⟩
  rw [List.range_succ_eq_map]
  have h0 : (0 % N == 0) = true := by simp
  rw [List.filter_cons, if_pos h0]
  have hrest : (List.map Nat.succ (List.range F')).filter (fun i => i % N == 0) = [] := by
    rw [List.filter_map]
    have : (List.range F').filter ((fun i => i % N == 0) ∘ Nat.succ) = [] := by
      rw [List.filter_eq_nil_iff]
      intro a ha
      have ha' : a < F' := List.mem_range.mp ha
      have : (a + 1) % N = a + 1 := Nat.mod_eq_of_lt (by omega)
      simp [Function.comp, this]
    rw [this, List.map_nil]
  rw [hrest]

/-- Claim C3: for a video of `F` raw frames and `sample_rate = N ≥ 1`,
`_batch_frames` yields exactly `⌈F/N⌉` sampled frames in total across all
batches; `N = 1` yields all `F` frames, and `N > F ≥ 1` yields exactly one
frame, the first (raw index 0). -/
theorem claim_C3 (F N B : ℕ) (hN : 1 ≤ N) :
    ((batch_frames F N B).flatten).length = (F + N - 1) / N ∧
    (N = 1 → ((batch_frames F N B).flatten).length = F) ∧
    (1 ≤ F → F < N → (batch_frames F N B).flatten = [0]) := by
  have hfl : (batch_frames F N B).flatten =
      (List.range F).filter (fun i => i % N == 0) := by
    simpa [batch_frames] using batch_frames_loop_flatten N B (List.range F) []
  refine ⟨?_, ?_, ?_⟩
  · rw [hfl, length_filter_mod N hN]
  · rintro rfl
    rw [hfl, length_filter_mod 1 (le_refl 1)]
    simp
  · intro h1 h2
    rw [hfl, filter_mod_of_lt N F h1 h2]

theorem claim_C3_witness : ((batch_frames 5 2 3).flatten).length = 3 := by
  have h := (claim_C3 5 2 3 (by norm_num)).1
  simpa using h

/-- Claim C4: batching is lossless and order-preserving — concatenating
the frame-number sequences of all emitted batches reproduces the sampled
index sequence exactly; every batch except possibly the last has exactly
`batch_size` elements; a nonempty final partial batch is emitted; an empty
sampled stream emits no batches. -/
theorem claim_C4 (N B : ℕ) (xs : List ℕ) (hB : 1 ≤ B) :
    (batch_frames_loop N B xs []).flatten = xs.filter (fun i => i % N == 0) ∧
    (∀ b ∈ (batch_frames_loop N B xs []).dropLast, b.length = B) ∧
    (∀ b ∈ batch_frames_loop N B xs [], b ≠ [] ∧ b.length ≤ B) ∧
    (xs.filter (fun i => i % N == 0) = [] → batch_frames_loop N B xs [] = []) := by
  have hsz := batch_frames_loop_sizes N B hB xs [] (by simpa using hB)
  have hfl := batch_frames_loop_flatten N B xs []
  refine ⟨by simpa using hfl, hsz.1, ?_, ?_⟩
  · intro b hb
    exact ⟨batch_frames_loop_ne_nil N B xs [] b hb, hsz.2 b hb⟩
  · intro hemp
    rcases hout : batch_frames_loop N B xs [] with _ | ⟨c, t⟩
    · rfl
    · exfalso
      have hflat : (c :: t).flatten = [] := by
        rw [← hout]
        simpa [hemp] using hfl
      have : c = [] := List.flatten_eq_nil_iff.mp hflat c (List.mem_cons_self c t)
      exact batch_frames_loop_ne_nil N B xs [] c
        (by rw [hout]; exact List.mem_cons_self c t) this

theorem claim_C4_witness :
    (batch_frames_loop 2 2 [0, 1, 2, 3, 4] []).flatten = [0, 2, 4] := by
  have h := (claim_C4 2 2 [0, 1, 2, 3, 4] (by norm_num)).1
  rw [h]
  decide

/-! ### Worker-pool fan-out / fan-in lemmas -/

/-- A detected pose yields the full result dict of lines 194-199. -/
theorem process_single_frame_detected (pose : ℕ → PoseOutcome) (ts : ℕ → ℝ)
    (n : ℕ) (L : Landmarks) (hp : pose n = PoseOutcome.detected L) :
    process_single_frame pose ts n =
      some ⟨n, ts n, some L.toKeypoints, calculate_metrics L.toKeypoints⟩ := by
  simp [process_single_frame, hp]

/-- A raising or undetected pose yields no result at all. -/
theorem process_single_frame_not_detected (pose : ℕ → PoseOutcome) (ts : ℕ → ℝ)
    (n : ℕ) (hp : (pose n).isDetected = false) :
    process_single_frame pose ts n = none := by
  cases h : pose n with
  | raises => simp [process_single_frame, h]
  | noLandmarks => simp [process_single_frame, h]
  | detected L => rw [h] at hp; simp [PoseOutcome.isDetected] at hp

/-- Anatomy of a delivered result: it comes from a detected pose on its
own frame number, with the full keypoint record and its metrics. -/
theorem process_single_frame_some (pose : ℕ → PoseOutcome) (ts : ℕ → ℝ)
    (n : ℕ) (r : FrameResult) (h : process_single_frame pose ts n = some r) :
    r.frame_number = n ∧
      ∃ L, pose n = PoseOutcome.detected L ∧ r.keypoints = some L.toKeypoints ∧
        r.metrics = calculate_metrics L.toKeypoints := by
  cases hp : pose n with
  | raises => simp [process_single_frame, hp] at h
  | noLandmarks => simp [process_single_frame, hp] at h
  | detected L =>
      simp only [process_single_frame, hp, Option.some.injEq] at h
      subst h
      exact ⟨rfl, L, rfl, rfl, rfl⟩

/-- The frame numbers delivered for one batch are exactly the batch's
detected frames, in delivery order. -/
theorem map_frame_number_process_batch (pose : ℕ → PoseOutcome) (ts : ℕ → ℝ) :
    ∀ b : List ℕ,
      (process_batch pose ts b).map FrameResult.frame_number =
        b.filter (fun i => (pose i).isDetected) := by
  intro b
  induction b with
  | nil => rfl
  | cons i rest ih =>
      cases hp : pose i with
      | raises =>
          rw [process_batch, List.filterMap_cons] at *
          simp [process_single_frame, hp, List.filter_cons, PoseOutcome.isDetected, ih]
      | noLandmarks =>
          rw [process_batch, List.filterMap_cons] at *
          simp [process_single_frame, hp, List.filter_cons, PoseOutcome.isDetected, ih]
      | detected L =>
          rw [process_batch, List.filterMap_cons] at *
          simp [process_single_frame, hp, List.filter_cons, PoseOutcome.isDetected, ih]

/-- Membership in the delivered stream factors through some batch. -/
theorem mem_process_video (pose : ℕ → PoseOutcome) (ts : ℕ → ℝ)
    (completed : List (List ℕ)) (r : FrameResult) :
    r ∈ process_video pose ts completed ↔
      ∃ b ∈ completed, ∃ j ∈ b, process_single_frame pose ts j = some r := by
  simp [process_video, process_batch, List.mem_flatten, List.mem_filterMap]

/-- Filtering distributes over flattening. -/
theorem flatten_map_filter (p : ℕ → Bool) :
    ∀ l : List (List ℕ), (l.map (List.filter p)).flatten = l.flatten.filter p := by
  intro l
  induction l with
  | nil => rfl
  | cons h t ih =>
      rw [List.map_cons, List.flatten_cons, List.flatten_cons, List.filter_append, ih]

/-- Per-batch permutation transports to the flattened delivery. -/
theorem flatten_filter_perm (p : ℕ → Bool) :
    ∀ (l₁ l₂ : List (List ℕ)), List.Forall₂ List.Perm l₁ l₂ →
      ((l₁.map (List.filter p)).flatten).Perm ((l₂.map (List.filter p)).flatten) := by
  intro l₁ l₂ h
  induction h with
  | nil => exact List.Perm.refl []
  | cons hab htl ih =>
      exact List.Perm.append (hab.filter p) ih

/-- `Forall₂` of permutations is reflexive. -/
theorem forall₂_perm_refl (l : List (List ℕ)) : List.Forall₂ List.Perm l l := by
  induction l with
  | nil => exact List.Forall₂.nil
  | cons a t ih => exact List.Forall₂.cons (List.Perm.refl a) ih

/-- The delivered frame numbers are the detected sampled frames, batch by
batch in delivery order. -/
theorem map_frame_number_process_video (pose : ℕ → PoseOutcome) (ts : ℕ → ℝ)
    (completed : List (List ℕ)) :
    (process_video pose ts completed).map FrameResult.frame_number =
      (completed.map (List.filter (fun i => (pose i).isDetected))).flatten := by
  rw [process_video, List.map_flatten, List.map_map]
  congr 1
  apply List.map_congr_left
  intro b _
  exact map_frame_number_process_batch pose ts b

/-- Claim C1 as stated is false: with the fan-in of `as_completed`
(lines 93-101) nothing re-orders results inside a batch, so a completion
order that inverts the submission order yields a delivery that is not
sorted by `frame_number`.  Here a two-frame batch (video of 2 frames,
`sample_rate = 1`, `batch_size = 2`) whose futures complete in the order
frame 1, frame 0 delivers `[1, 0]`. -/
theorem claim_C1_counterexample :
    List.Forall₂ List.Perm [[1, 0]] (batch_frames 2 1 2) ∧
    ¬ List.Sorted (· ≤ ·)
      ((process_video (fun _ => PoseOutcome.detected demoLandmarks) (fun _ => 0)
        [[1, 0]]).map FrameResult.frame_number) := by
  constructor
  · have hb : batch_frames 2 1 2 = [[0, 1]] := by decide
    rw [hb]
    exact List.Forall₂.cons (List.Perm.swap 0 1 []) List.Forall₂.nil
  · have hmap : (process_video (fun _ => PoseOutcome.detected demoLandmarks)
        (fun _ => 0) [[1, 0]]).map FrameResult.frame_number = [1, 0] := by
      rw [map_frame_number_process_video]
      decide
    rw [hmap]
    decide

/-- Claim C1 amended: batches are processed strictly in source order, and
within a batch results arrive in completion order.  Hence (a) for any
per-batch completion order, the delivered frame numbers are a permutation
of the detected sampled frames taken in source order, and (b) when every
batch completes in submission order, the delivered sequence is sorted by
strictly ascending `frame_number`; an adversarial completion order can
break the sort (see the counterexample), so the aggregate of
`fn_process_video`, which appends in delivery order, is only sorted in
case (b). -/
theorem claim_C1_amended (pose : ℕ → PoseOutcome) (ts : ℕ → ℝ) (F N B : ℕ)
    (completed : List (List ℕ))
    (hperm : List.Forall₂ List.Perm completed (batch_frames F N B)) :
    ((process_video pose ts completed).map FrameResult.frame_number).Perm
      (((batch_frames F N B).flatten).filter (fun i => (pose i).isDetected)) ∧
    (completed = batch_frames F N B →
      List.Sorted (· < ·)
        ((process_video pose ts completed).map FrameResult.frame_number)) := by
  constructor
  · rw [map_frame_number_process_video, ← flatten_map_filter]
    exact flatten_filter_perm _ completed (batch_frames F N B) hperm
  · rintro rfl
    rw [map_frame_number_process_video, flatten_map_filter]
    have hsub : ((batch_frames F N B).flatten.filter
        (fun i => (pose i).isDetected)).Sublist (List.range F) := by
      have h1 := List.filter_sublist (p := fun i => (pose i).isDetected)
        ((batch_frames F N B).flatten)
      have h2 : ((batch_frames F N B).flatten).Sublist (List.range F) := by
        have hfl : (batch_frames F N B).flatten =
            (List.range F).filter (fun i => i % N == 0) := by
          simpa [batch_frames] using batch_frames_loop_flatten N B (List.range F) []
        rw [hfl]
        exact List.filter_sublist (List.range F)
      exact h1.trans h2
    exact (List.sorted_lt_range F).sublist hsub

theorem claim_C1_witness :
    List.Sorted (· < ·)
      ((process_video (fun _ => PoseOutcome.detected demoLandmarks) (fun _ => 0)
        (batch_frames 4 2 1)).map FrameResult.frame_number) :=
  (claim_C1_amended (fun _ => PoseOutcome.detected demoLandmarks) (fun _ => 0)
    4 2 1 (batch_frames 4 2 1) (forall₂_perm_refl (batch_frames 4 2 1))).2 rfl

/-- Claim C2 as stated is false: an exception in the pose call is indeed
caught at the per-frame boundary (line 201) and siblings still run, but
the failing frame produces `None`, which the `if result:` guard at line 98
drops — no `FrameResult` with `keypoints = None` is ever emitted.  With a
batch `[0, 1]` where frame 0 raises and frame 1 detects, the delivered
frame numbers are exactly `[1]` and no delivered result has
`keypoints = none`. -/
theorem claim_C2_counterexample :
    process_video
        (fun n => if n = 0 then PoseOutcome.raises else PoseOutcome.detected demoLandmarks)
        (fun _ => 0) [[0, 1]] =
      [⟨1, 0, some demoLandmarks.toKeypoints, calculate_metrics demoLandmarks.toKeypoints⟩] := by
  simp [process_video, process_batch, process_single_frame]

/-- Claim C2 amended: a pose-estimation exception for a frame is caught at
the per-frame boundary and does not abort sibling frames or the run, but
the failing frame contributes no `FrameResult` at all (it is logged and
skipped), rather than being emitted with `keypoints = None` and an error
note; every sibling frame whose pose is detected is still delivered. -/
theorem claim_C2_amended (pose : ℕ → PoseOutcome) (ts : ℕ → ℝ)
    (completed : List (List ℕ)) (i : ℕ) (hra : pose i = PoseOutcome.raises) :
    process_single_frame pose ts i = none ∧
    (∀ r ∈ process_video pose ts completed, r.frame_number ≠ i) ∧
    (∀ b ∈ completed, ∀ j ∈ b, ∀ L, pose j = PoseOutcome.detected L →
      ∃ r ∈ process_video pose ts completed,
        r.frame_number = j ∧ r.keypoints = some L.toKeypoints) := by
  refine ⟨process_single_frame_not_detected pose ts i (by simp [hra, PoseOutcome.isDetected]),
    ?_, ?_⟩
  · intro r hr hcon
    obtain ⟨b, _, j, _, hj⟩ := (mem_process_video pose ts completed r).mp hr
    obtain ⟨hfn, L, hdet, -, -⟩ := process_single_frame_some pose ts j r hj
    rw [hcon] at hfn
    rw [← hfn] at hdet
    rw [hra] at hdet
    cases hdet
  · intro b hb j hj L hdet
    refine ⟨⟨j, ts j, some L.toKeypoints, calculate_metrics L.toKeypoints⟩, ?_, rfl, rfl⟩
    exact (mem_process_video pose ts completed _).mpr
      ⟨b, hb, j, hj, process_single_frame_detected pose ts j L hdet⟩

theorem claim_C2_witness :
    process_single_frame
      (fun n => if n = 0 then PoseOutcome.raises else PoseOutcome.detected demoLandmarks)
      (fun _ => 0) 0 = none ∧
    (FrameResult.mk 1 0 (some demoLandmarks.toKeypoints)
      (calculate_metrics demoLandmarks.toKeypoints)).frame_number ≠ 0 := by
  have h := claim_C2_amended
    (fun n => if n = 0 then PoseOutcome.raises else PoseOutcome.detected demoLandmarks)
    (fun _ => 0) [[0, 1]] 0 rfl
  refine ⟨h.1, h.2.1 _ ?_⟩
  exact (mem_process_video _ _ _ _).mpr
    ⟨[0, 1], by simp, 1, by simp,
      process_single_frame_detected _ _ 1 demoLandmarks rfl⟩

/-- On a full landmark set every metric is computed, in insertion order. -/
theorem calculate_metrics_full (L : Landmarks) :
    calculate_metrics L.toKeypoints =
      [("wrist_distance",
        Real.sqrt ((L.left_wrist.x - L.right_wrist.x) ^ 2 +
          (L.left_wrist.y - L.right_wrist.y) ^ 2)),
       ("left_elbow_angle",
        calculate_angle (L.left_shoulder.x, L.left_shoulder.y, 0)
          (L.left_elbow.x, L.left_elbow.y, 0) (L.left_wrist.x, L.left_wrist.y, 0)),
       ("right_elbow_angle",
        calculate_angle (L.right_shoulder.x, L.right_shoulder.y, 0)
          (L.right_elbow.x, L.right_elbow.y, 0)
          (L.right_wrist.x, L.right_wrist.y, 0))] := rfl

/-- Claim C10 (implicit in the source): every delivered result carries a
non-None keypoint record with all seven tracked joints (it is
`Landmarks.toKeypoints` of a full landmark set), and its metrics contain
`wrist_distance` and both elbow angles; frames whose pose call raises or
detects nothing produce no output element at all. -/
theorem claim_C10 (pose : ℕ → PoseOutcome) (ts : ℕ → ℝ)
    (completed : List (List ℕ)) :
    (∀ r ∈ process_video pose ts completed,
      (∃ L : Landmarks, r.keypoints = some L.toKeypoints) ∧
      (List.lookup "wrist_distance" r.metrics).isSome = true ∧
      (List.lookup "left_elbow_angle" r.metrics).isSome = true ∧
      (List.lookup "right_elbow_angle" r.metrics).isSome = true) ∧
    (∀ i, (pose i).isDetected = false →
      ∀ r ∈ process_video pose ts completed, r.frame_number ≠ i) := by
  constructor
  · intro r hr
    obtain ⟨b, -, j, -, hj⟩ := (mem_process_video pose ts completed r).mp hr
    obtain ⟨-, L, -, hkp, hm⟩ := process_single_frame_some pose ts j r hj
    refine ⟨⟨L, hkp⟩, ?_, ?_, ?_⟩ <;>
      rw [hm, calculate_metrics_full] <;> simp [List.lookup]
  · intro i hnd r hr hcon
    obtain ⟨b, -, j, -, hj⟩ := (mem_process_video pose ts completed r).mp hr
    obtain ⟨hfn, L, hdet, -, -⟩ := process_single_frame_some pose ts j r hj
    rw [hcon] at hfn
    rw [← hfn] at hdet
    rw [hdet] at hnd
    simp [PoseOutcome.isDetected] at hnd

theorem claim_C10_witness :
    (List.lookup "wrist_distance" (calculate_metrics demoLandmarks.toKeypoints)).isSome = true ∧
    (List.lookup "left_elbow_angle" (calculate_metrics demoLandmarks.toKeypoints)).isSome = true ∧
    (List.lookup "right_elbow_angle" (calculate_metrics demoLandmarks.toKeypoints)).isSome = true := by
  have h := (claim_C10 (fun _ => PoseOutcome.detected demoLandmarks) (fun _ => 0) [[0]]).1
    ⟨0, 0, some demoLandmarks.toKeypoints, calculate_metrics demoLandmarks.toKeypoints⟩
    ((mem_process_video _ _ _ _).mpr
      ⟨[0], by simp, 0, by simp,
        process_single_frame_detected _ _ 0 demoLandmarks rfl⟩)
  exact ⟨h.2.1, h.2.2.1, h.2.2.2⟩

/-- Claim C5 as stated is false: `derive(None)` is not `{}`.  The first
statement of `_calculate_metrics` runs a membership test over its
argument, and a `None` argument makes Python raise a `TypeError`, so the
call errors instead of returning the empty mapping. -/
theorem claim_C5_counterexample :
    calculate_metrics_checked none ≠ Except.ok [] := by
  simp [calculate_metrics_checked]

/-- Claim C5 amended: applied to `None`, the metric-derivation operation
raises a `TypeError` rather than returning the empty mapping; applied to
any actual keypoint record it returns the computed mapping.  (Within the
pipeline the operation is never invoked with `None`: frames without
detected landmarks yield no result dict at all.) -/
theorem claim_C5_amended :
    calculate_metrics_checked none =
      Except.error "TypeError: argument of type NoneType is not iterable" ∧
    ∀ k : Keypoints, calculate_metrics_checked (some k) = Except.ok (calculate_metrics k) :=
  ⟨rfl, fun _ => rfl⟩

/-- Claim C9: metric derivation is a pure, deterministic function of its
input.  As a state-passing method it leaves the processor state untouched,
its output is independent of the state, and re-running it (in any order,
any number of times) yields the identical output mapping. -/
theorem claim_C9 (s1 s2 : ProcessorState) (k : Keypoints) :
    calculate_metrics_method s1 k = (s1, calculate_metrics k) ∧
    (calculate_metrics_method ((calculate_metrics_method s1 k).1) k).2 =
      (calculate_metrics_method s1 k).2 ∧
    (calculate_metrics_method s1 k).2 = (calculate_metrics_method s2 k).2 :=
  ⟨rfl, rfl, rfl⟩

/-- Claim C8: when zero frames survive sampling, or the pose estimator
never detects landmarks (so zero results are delivered), `fn_process_video`
does not return an empty success: the `ValueError("No pose detection
results returned")` raised at line 112 is caught and recorded as a
distinguishable step error appended to the state's error list. -/
theorem claim_C8 (pose : ℕ → PoseOutcome) (ts : ℕ → ℝ) (errs : List StepError)
    (F N B : ℕ) (completed : List (List ℕ))
    (hperm : List.Forall₂ List.Perm completed (batch_frames F N B))
    (hcond : (batch_frames F N B).flatten = [] ∨ ∀ i, (pose i).isDetected = false) :
    fn_process_video true errs (process_video pose ts completed) =
      NodeUpdate.failed (errs ++
        [⟨"process_video", "Video processing failed: No pose detection results returned"⟩]) := by
  have hempty : process_video pose ts completed = [] := by
    rcases hcond with hfl | hnd
    · have hbf : batch_frames F N B = [] := by
        rcases hbf : batch_frames F N B with _ | ⟨c, t⟩
        · rfl
        · exfalso
          have hC : c = [] := by
            rw [hbf] at hfl
            exact List.flatten_eq_nil_iff.mp hfl c (List.mem_cons_self c t)
          refine batch_frames_loop_ne_nil N B (List.range F) [] c ?_ hC
          rw [show batch_frames_loop N B (List.range F) [] = batch_frames F N B from rfl,
            hbf]
          exact List.mem_cons_self c t
      rw [hbf] at hperm
      cases hperm
      rfl
    · rw [process_video]
      apply List.flatten_eq_nil_iff.mpr
      intro l hl
      obtain ⟨b, -, rfl⟩ := List.mem_map.mp hl
      apply List.filterMap_eq_nil_iff.mpr
      intro a _
      exact process_single_frame_not_detected pose ts a (hnd a)
  rw [hempty]
  rfl

theorem claim_C8_witness :
    fn_process_video true [] (process_video (fun _ => PoseOutcome.raises) (fun _ => 0) []) =
      NodeUpdate.failed ([] ++
        [⟨"process_video", "Video processing failed: No pose detection results returned"⟩]) :=
  claim_C8 (fun _ => PoseOutcome.raises) (fun _ => 0) [] 0 1 1 []
    (by rw [show batch_frames 0 1 1 = [] from rfl]; exact List.Forall₂.nil)
    (Or.inl rfl)

/-! ### Numeric geometry lemmas -/

/-- Cauchy–Schwarz for the embedded 3-vectors. -/
theorem abs_dot3_le (u v : ℝ × ℝ × ℝ) : |dot3 u v| ≤ norm3 u * norm3 v := by
  have hA : (0:ℝ) ≤ u.1 ^ 2 + u.2.1 ^ 2 + u.2.2 ^ 2 := by positivity
  have hCS : (dot3 u v) ^ 2 ≤
      (u.1 ^ 2 + u.2.1 ^ 2 + u.2.2 ^ 2) * (v.1 ^ 2 + v.2.1 ^ 2 + v.2.2 ^ 2) := by
    simp only [dot3]
    nlinarith [sq_nonneg (u.1 * v.2.1 - u.2.1 * v.1),
      sq_nonneg (u.1 * v.2.2 - u.2.2 * v.1),
      sq_nonneg (u.2.1 * v.2.2 - u.2.2 * v.2.1)]
  have habs : |dot3 u v| = Real.sqrt ((dot3 u v) ^ 2) := (Real.sqrt_sq_eq_abs _).symm
  rw [habs, norm3, norm3, ← Real.sqrt_mul hA]
  exact Real.sqrt_le_sqrt hCS

/-- Clipped-arccos degrees stay strictly below 180 when the raw cosine is
strictly above −1. -/
theorem degrees_arccos_clip_lt (c : ℝ) (hc : -1 < c) :
    Real.arccos (min (max c (-1)) 1) * (180 / Real.pi) < 180 := by
  have hmax : max c (-1) = c := max_eq_left hc.le
  rw [hmax]
  by_cases h1 : c ≤ 1
  · rw [min_eq_left h1]
    have harc : Real.arccos c < Real.pi :=
      lt_of_le_of_ne (Real.arccos_le_pi c)
        (fun h => absurd (Real.arccos_eq_pi.mp h) (not_le.mpr hc))
    have hpos : (0:ℝ) < 180 / Real.pi := by positivity
    calc Real.arccos c * (180 / Real.pi)
        < Real.pi * (180 / Real.pi) := mul_lt_mul_of_pos_right harc hpos
      _ = 180 := by field_simp
  · rw [min_eq_right (le_of_not_le h1), Real.arccos_one]
    norm_num

/-- Clipped-arccos degrees stay strictly above 0 when the raw cosine is
strictly below 1. -/
theorem degrees_arccos_clip_pos (c : ℝ) (hc : c < 1) :
    0 < Real.arccos (min (max c (-1)) 1) * (180 / Real.pi) := by
  have hpos : (0:ℝ) < 180 / Real.pi := by positivity
  by_cases h : -1 ≤ c
  · rw [max_eq_left h, min_eq_left hc.le]
    exact mul_pos (Real.arccos_pos.mpr hc) hpos
  · rw [max_eq_right (le_of_lt (not_le.mp h)),
      min_eq_left (by norm_num : (-1:ℝ) ≤ 1), Real.arccos_neg_one]
    exact mul_pos Real.pi_pos hpos

/-- Because `_calculate_angle` adds `1e-6` to the denominator, its cosine
argument is strictly inside `(-1, 1)` for every input, so the computed
angle lies strictly between 0° and 180° — the boundary values are
approached but never attained. -/
theorem calculate_angle_mem_Ioo (a b c : ℝ × ℝ × ℝ) :
    0 < calculate_angle a b c ∧ calculate_angle a b c < 180 := by
  obtain ⟨hlow, hhigh⟩ := abs_le.mp (abs_dot3_le (sub3 a b) (sub3 c b))
  have heps : (0:ℝ) < 1e-6 := by norm_num
  have hnn : (0:ℝ) ≤ norm3 (sub3 a b) * norm3 (sub3 c b) :=
    mul_nonneg (Real.sqrt_nonneg _) (Real.sqrt_nonneg _)
  have hden : (0:ℝ) < norm3 (sub3 a b) * norm3 (sub3 c b) + 1e-6 := by linarith
  have hC1 : dot3 (sub3 a b) (sub3 c b) /
      (norm3 (sub3 a b) * norm3 (sub3 c b) + 1e-6) < 1 := by
    rw [div_lt_one hden]
    linarith
  have hC2 : -1 < dot3 (sub3 a b) (sub3 c b) /
      (norm3 (sub3 a b) * norm3 (sub3 c b) + 1e-6) := by
    rw [lt_div_iff₀ hden]
    linarith
  refine ⟨?_, ?_⟩ <;> simp only [calculate_angle]
  · exact degrees_arccos_clip_pos _ hC1
  · exact degrees_arccos_clip_lt _ hC2

/-- The source's 3-D angle on points with `z = 0` coincides with the
spec's 2-D elbow-angle formula. -/
theorem calculate_angle_eq_spec (s e w : Coord) :
    calculate_angle (s.x, s.y, 0) (e.x, e.y, 0) (w.x, w.y, 0) = specElbowAngle s e w := by
  simp [calculate_angle, specElbowAngle, sub3, dot3, norm3]

/-- Claim C6: whenever all three joints of a side are present, the derived
metrics contain `<side>_elbow_angle` whose value is exactly the spec's
formula `degrees(arccos(clip(dot(v1,v2)/(|v1||v2| + 1e-6), -1, 1)))` with
`v1 = shoulder − elbow`, `v2 = wrist − elbow`; when any of the three is
absent, the key is absent and no error is raised (the derivation is a
total function). -/
theorem claim_C6 :
    (∀ (k : Keypoints) (s e w : Coord),
      k.left_shoulder = some s → k.left_elbow = some e → k.left_wrist = some w →
      List.lookup "left_elbow_angle" (calculate_metrics k) =
        some (specElbowAngle s e w)) ∧
    (∀ (k : Keypoints) (s e w : Coord),
      k.right_shoulder = some s → k.right_elbow = some e → k.right_wrist = some w →
      List.lookup "right_elbow_angle" (calculate_metrics k) =
        some (specElbowAngle s e w)) ∧
    (∀ k : Keypoints,
      k.left_shoulder = none ∨ k.left_elbow = none ∨ k.left_wrist = none →
      List.lookup "left_elbow_angle" (calculate_metrics k) = none) ∧
    (∀ k : Keypoints,
      k.right_shoulder = none ∨ k.right_elbow = none ∨ k.right_wrist = none →
      List.lookup "right_elbow_angle" (calculate_metrics k) = none) := by
  refine ⟨?_, ?_, ?_, ?_⟩
  · intro k s e w hs he hw
    rcases hrw : k.right_wrist with _ | rw0 <;>
      simp [calculate_metrics, hs, he, hw, hrw, List.lookup, calculate_angle_eq_spec]
  · intro k s e w hs he hw
    rcases hlw : k.left_wrist with _ | lw <;>
      rcases hls : k.left_shoulder with _ | ls <;>
        rcases hle : k.left_elbow with _ | le0 <;>
          simp [calculate_metrics, hs, he, hw, hlw, hls, hle, List.lookup,
            calculate_angle_eq_spec]
  · intro k hor
    rcases hlw : k.left_wrist with _ | lw <;>
      rcases hrw : k.right_wrist with _ | rw0 <;>
        rcases hls : k.left_shoulder with _ | ls <;>
          rcases hle : k.left_elbow with _ | le0 <;>
            rcases hrs : k.right_shoulder with _ | rs <;>
              rcases hre : k.right_elbow with _ | re0 <;>
                simp_all [calculate_metrics, List.lookup]
  · intro k hor
    rcases hlw : k.left_wrist with _ | lw <;>
      rcases hrw : k.right_wrist with _ | rw0 <;>
        rcases hls : k.left_shoulder with _ | ls <;>
          rcases hle : k.left_elbow with _ | le0 <;>
            rcases hrs : k.right_shoulder with _ | rs <;>
              rcases hre : k.right_elbow with _ | re0 <;>
                simp_all [calculate_metrics, List.lookup]

theorem claim_C6_witness :
    List.lookup "left_elbow_angle" (calculate_metrics demoLandmarks.toKeypoints) =
      some (specElbowAngle demoCoord demoCoord demoCoord) ∧
    List.lookup "left_elbow_angle"
      (calculate_metrics { demoLandmarks.toKeypoints with left_elbow := none }) = none :=
  ⟨claim_C6.1 demoLandmarks.toKeypoints demoCoord demoCoord demoCoord rfl rfl rfl,
   claim_C6.2.2.1 { demoLandmarks.toKeypoints with left_elbow := none }
     (Or.inr (Or.inl rfl))⟩

/-- Claim C7 as stated is false: the `1e-6` added to the denominator of
the cosine keeps it strictly above −1 (resp. below 1), so for the colinear
shoulder–elbow–wrist configuration with the wrist opposite the shoulder —
here shoulder (0,1), elbow (0,0), wrist (0,−1) — the computed angle is
strictly less than 180°, not equal to it; and for coincident
shoulder/wrist — here both (0,1) with elbow (0,0) — it is strictly greater
than 0°, not equal to 0°. -/
theorem claim_C7_counterexample :
    calculate_angle ((0:ℝ), 1, 0) (0, 0, 0) (0, -1, 0) ≠ 180 ∧
    calculate_angle ((0:ℝ), 1, 0) (0, 0, 0) (0, 1, 0) ≠ 0 :=
  ⟨ne_of_lt (calculate_angle_mem_Ioo _ _ _).2,
   ne_of_gt (calculate_angle_mem_Ioo _ _ _).1⟩

/-- Claim C7 amended: in the colinear configuration with the wrist
directly opposite the shoulder across the elbow (wrist − elbow =
−t·(shoulder − elbow), t > 0, shoulder ≠ elbow) the computed angle is
strictly less than 180°, and with shoulder and wrist at the identical
position (distinct from the elbow) it is strictly greater than 0°: the
ε-guarded cosine never reaches ±1, so the boundary values 180° and 0° are
approached but not attained. -/
theorem claim_C7_amended (a₁ a₂ b₁ b₂ t : ℝ) (ht : 0 < t)
    (hne : (a₁, a₂) ≠ (b₁, b₂)) :
    calculate_angle (a₁, a₂, 0) (b₁, b₂, 0)
      (b₁ - t * (a₁ - b₁), b₂ - t * (a₂ - b₂), 0) < 180 ∧
    0 < calculate_angle (a₁, a₂, 0) (b₁, b₂, 0) (a₁, a₂, 0) :=
  ⟨(calculate_angle_mem_Ioo _ _ _).2, (calculate_angle_mem_Ioo _ _ _).1⟩

theorem claim_C7_witness :
    calculate_angle ((0:ℝ), 1, 0) (0, 0, 0) (0 - 1 * (0 - 0), 0 - 1 * (1 - 0), 0) < 180 ∧
    0 < calculate_angle ((0:ℝ), 1, 0) (0, 0, 0) (0, 1, 0) :=
  claim_C7_amended 0 1 0 0 1 one_pos (by simp)

end BadmintonAI
